import Mathlib

/-!
Shallow embedding of the CHIP-8 CPU core in `src/cpu.rs`.

Machine integers are modelled as `Nat` with explicit `% 2^w` where the Rust
code truncates (`as u16` casts, `u8` wrapping addition).  Rust panics
(`panic!`, `todo!`, out-of-bounds array indexing) terminate the run; the
embedding returns them as explicit `Fault` values, following the convention
that fallible code returns `Except`.  Field names keep the Rust names.
-/

namespace Chip8

/-- The CPU state of `struct CPU` in `src/cpu.rs`:
`registers: [u8; 16]`, `memory: [u8; 0x1000]`, `position_in_memory: usize`
(the program counter), `stack: [u16; 16]`, `stack_pointer: usize`.
Arrays are modelled as total functions from index to value; out-of-bounds
accesses are guarded explicitly where the Rust indexing could panic.
Byte/word invariants (`registers i < 256`, `memory a < 256`,
`stack i < 65536`) are stated as hypotheses where needed. -/
structure CPU where
  registers : Nat → Nat
  memory : Nat → Nat
  position_in_memory : Nat
  stack : Nat → Nat
  stack_pointer : Nat

/-- The ways a run can terminate abnormally.  In the Rust source each of
these is a panic: `panic!("Stack overflow")` and `panic!("Stack underflow")`
in `call`/`ret`, `todo!()` for an unmatched opcode pattern, and the
out-of-bounds index panics of `memory[p]` in `read_opcode` (`outOfBoundsFetch`)
and of `stack[sp]` / `registers[x]` (`indexOutOfBounds`). -/
inductive Fault where
  | outOfBoundsFetch
  | stackOverflow
  | stackUnderflow
  | unimplementedOpcode
  | indexOutOfBounds
deriving DecidableEq, Repr

/-- Result of one iteration of the `loop` body in `CPU::run`. -/
inductive StepResult where
  | running (c : CPU)
  | halt (c : CPU)
  | fault (f : Fault) (c : CPU)

/-- Terminal observation of a whole run.  `outOfFuel` marks that the
fuel-indexed approximation of the unbounded Rust `loop` was exhausted
while still running. -/
inductive Outcome where
  | halted (c : CPU)
  | faulted (f : Fault) (c : CPU)
  | outOfFuel (c : CPU)

/-- `CPU::new`: everything zeroed. -/
def CPU.new : CPU where
  registers := fun _ => 0
  memory := fun _ => 0
  position_in_memory := 0
  stack := fun _ => 0
  stack_pointer := 0

/-- The 16-bit word `op_byte1 << 8 | op_byte2` combined from the bytes at
`position_in_memory` and `position_in_memory + 1`, as in `CPU::read_opcode`. -/
def fetchedWord (c : CPU) : Nat :=
  c.memory c.position_in_memory <<< 8 ||| c.memory (c.position_in_memory + 1)

/-- `CPU::read_opcode`: reads `memory[p]` and `memory[p+1]` and combines
them as `op_byte1 << 8 | op_byte2`.  Takes `&self`, so it returns only the
word, no state.  `memory` has length `0x1000 = 4096`; indexing either byte
out of bounds is the fetch fault. -/
def read_opcode (c : CPU) : Except Fault Nat :=
  if c.position_in_memory + 1 < 4096 then
    .ok (fetchedWord c)
  else
    .error .outOfBoundsFetch

/-- Decode field `c = (opcode & 0xF000) >> 12`, written in the arithmetic
form `opcode / 4096 % 16`, which is equal for every `Nat`. -/
def decodeC (opcode : Nat) : Nat := opcode / 4096 % 16

/-- Decode field `x = (opcode & 0x0F00) >> 8 = opcode / 256 % 16`. -/
def decodeX (opcode : Nat) : Nat := opcode / 256 % 16

/-- Decode field `y = (opcode & 0x00F0) >> 4 = opcode / 16 % 16`. -/
def decodeY (opcode : Nat) : Nat := opcode / 16 % 16

/-- Decode field `d = (opcode & 0x000F) >> 0 = opcode % 16`. -/
def decodeD (opcode : Nat) : Nat := opcode % 16

/-- Decode field `nnn = opcode & 0x0FFF = opcode % 4096`. -/
def decodeNNN (opcode : Nat) : Nat := opcode % 4096

/-- `CPU::call`: the Rust code checks `sp > stack.len()` (note: `>`,
not `>=`, with `stack.len() = 16`), then writes `stack[sp]`, which for
`sp = 16` is an out-of-bounds index; then increments `stack_pointer` and
jumps.  The `as u16` cast of the pushed program counter is `% 65536`. -/
def call (c : CPU) (nnn : Nat) : Except Fault CPU :=
  let sp := c.stack_pointer
  if sp > 16 then
    .error .stackOverflow
  else if 16 ≤ sp then
    .error .indexOutOfBounds
  else
    .ok { c with
          stack := fun i => if i = sp then c.position_in_memory % 65536 else c.stack i
          stack_pointer := sp + 1
          position_in_memory := nnn }

/-- `CPU::ret`: panic on `stack_pointer == 0`, otherwise decrement the
stack pointer and jump to `stack[stack_pointer]` (the read `stack[sp]`
would be out of bounds were the decremented pointer at least 16). -/
def ret (c : CPU) : Except Fault CPU :=
  if c.stack_pointer = 0 then
    .error .stackUnderflow
  else if 16 ≤ c.stack_pointer - 1 then
    .error .indexOutOfBounds
  else
    .ok { c with
          stack_pointer := c.stack_pointer - 1
          position_in_memory := c.stack (c.stack_pointer - 1) }

/-- `CPU::add_xy`: reads `registers[x]` and `registers[y]`, writes the
`u8` `overflowing_add` result to `registers[x]`, then writes the carry
flag to `registers[0xF]`.  For byte-valued arguments `overflowing_add`
returns `(arg1 + arg2) % 256` with overflow exactly when
`256 ≤ arg1 + arg2`. -/
def add_xy (c : CPU) (x y : Nat) : Except Fault CPU :=
  if 16 ≤ x then
    .error .indexOutOfBounds
  else if 16 ≤ y then
    .error .indexOutOfBounds
  else
    let arg1 := c.registers x
    let arg2 := c.registers y
    let val := (arg1 + arg2) % 256
    let regs1 : Nat → Nat := fun i => if i = x then val else c.registers i
    let regs2 : Nat → Nat :=
      if 256 ≤ arg1 + arg2 then
        fun i => if i = 15 then 1 else regs1 i
      else
        fun i => if i = 15 then 0 else regs1 i
    .ok { c with registers := regs2 }

/-- One iteration of the `loop` in `CPU::run`: fetch, advance
`position_in_memory` by 2, decode the nibbles `c`, `x`, `y`, `d` and the
12-bit address `nnn`, and dispatch on `(c, x, y, d)` in source order.
The `_ => todo!()` arm is the `unimplementedOpcode` fault. -/
def step (c : CPU) : StepResult :=
  match read_opcode c with
  | .error f => .fault f c
  | .ok opcode =>
    let c1 : CPU := { c with position_in_memory := c.position_in_memory + 2 }
    let cf := decodeC opcode
    let x := decodeX opcode
    let y := decodeY opcode
    let d := decodeD opcode
    let nnn := decodeNNN opcode
    if cf = 0 ∧ x = 0 ∧ y = 0 ∧ d = 0 then
      .halt c1
    else if cf = 0 ∧ x = 0 ∧ y = 14 ∧ d = 14 then
      match ret c1 with
      | .ok c2 => .running c2
      | .error f => .fault f c1
    else if cf = 2 then
      match call c1 nnn with
      | .ok c2 => .running c2
      | .error f => .fault f c1
    else if cf = 8 ∧ d = 4 then
      match add_xy c1 x y with
      | .ok c2 => .running c2
      | .error f => .fault f c1
    else
      .fault .unimplementedOpcode c1

/-- `CPU::run`, indexed by fuel: the Rust `loop` iterated at most `fuel`
times.  `break` yields `halted`; a panic yields `faulted`. -/
def run (fuel : Nat) (c : CPU) : Outcome :=
  match fuel with
  | 0 => .outOfFuel c
  | n + 1 =>
    match step c with
    | .running c2 => run n c2
    | .halt c2 => .halted c2
    | .fault f c2 => .faulted f c2

/-- Whether an outcome is the normal `Halted` termination. -/
def Outcome.isHalted : Outcome → Bool
  | .halted _ => true
  | _ => false

/-- The machine state carried by an outcome. -/
def Outcome.state : Outcome → CPU
  | .halted c => c
  | .faulted _ c => c
  | .outOfFuel c => c

/-- The fault reason of an outcome, if it faulted. -/
def Outcome.faultOf : Outcome → Option Fault
  | .faulted f _ => some f
  | _ => none

/-- The machine state built by `example()` in `src/cpu.rs`:
`registers[0] = 5`, `registers[1] = 10`, with
`CALL 0x100; CALL 0x100; HALT` at offsets 0..5 and
`ADD reg0 += reg1; ADD reg0 += reg1; RETURN` at offsets 0x100..0x105. -/
def exampleCPU : CPU :=
  { CPU.new with
    registers := fun i => if i = 0 then 5 else if i = 1 then 10 else 0
    memory := fun a =>
      if a = 0x000 then 0x21 else if a = 0x001 then 0x00 else
      if a = 0x002 then 0x21 else if a = 0x003 then 0x00 else
      if a = 0x004 then 0x00 else if a = 0x005 then 0x00 else
      if a = 0x100 then 0x80 else if a = 0x101 then 0x14 else
      if a = 0x102 then 0x80 else if a = 0x103 then 0x14 else
      if a = 0x104 then 0x00 else if a = 0x105 then 0xEE else 0 }

/-- C1: the example program image — CALL 0x100, CALL 0x100, HALT at
offsets 0..5 and ADD reg0+=reg1, ADD reg0+=reg1, RETURN at 0x100..0x105 —
run from registers reg0=5, reg1=10 and program counter 0, terminates
normally (Halted) with register 0 equal to 45.  Nine loop iterations are
executed; 16 units of fuel more than suffice. -/
theorem example_program_halts_with_45 :
    (run 16 exampleCPU).isHalted = true ∧
    (run 16 exampleCPU).state.registers 0 = 45 := by
  constructor <;> decide

/-- Helper: a shifted block ored with a small number is their sum. -/
lemma mul_two_pow_lor_eq_add (k : Nat) :
    ∀ a b : Nat, b < 2 ^ k → a * 2 ^ k ||| b = a * 2 ^ k + b := by
  induction k with
  | zero =>
    intro a b hb
    simp only [pow_zero] at hb ⊢
    have hb0 : b = 0 := by omega
    subst hb0
    simp
  | succ k ih =>
    intro a b hb
    have hpow : 2 ^ (k + 1) = 2 * 2 ^ k := by rw [pow_succ]; ring
    have hprod : a * 2 ^ (k + 1) = 2 * (a * 2 ^ k) := by rw [hpow]; ring
    have hdiv : b / 2 < 2 ^ k := by omega
    have h1 : a * 2 ^ (k + 1) = Nat.bit false (a * 2 ^ k) := by
      rw [Nat.bit_val, hprod]; simp
    have key : a * 2 ^ (k + 1) ||| b = Nat.bit (Nat.bodd b) (a * 2 ^ k + b / 2) := by
      conv_lhs => rw [h1, ← Nat.bit_decomp b]
      rw [Nat.lor_bit, Nat.div2_val, ih a (b / 2) hdiv, Bool.false_or]
    rw [key, Nat.bit_val, hprod]
    have hmod := Nat.mod_two_of_bodd b
    cases hb' : Nat.bodd b <;> rw [hb'] at hmod <;>
      simp only [Bool.toNat_true, Bool.toNat_false, cond] at hmod ⊢ <;> omega

/-- Helper: for a byte-valued low part, the fetched word `b1 << 8 ||| b2`
equals `b1 * 256 + b2`, i.e. the first byte occupies the upper 8 bits. -/
lemma shiftLeft_lor_eq (b1 b2 : Nat) (h : b2 < 256) :
    b1 <<< 8 ||| b2 = b1 * 256 + b2 := by
  rw [Nat.shiftLeft_eq]
  have h8 : (256 : Nat) = 2 ^ 8 := by norm_num
  rw [h8] at h ⊢
  exact mul_two_pow_lor_eq_add 8 b1 b2 h

/-- C4: for every `program_counter` with both bytes inside memory bounds,
fetch returns the 16-bit word `memory[p] << 8 ||| memory[p+1]`, which — the
byte at `p` occupying the upper 8 bits — equals
`memory[p] * 256 + memory[p+1]` for byte-valued memory.  `read_opcode`
takes the state and returns only the word: it mutates nothing. -/
theorem read_opcode_spec (c : CPU)
    (hp : c.position_in_memory + 1 < 4096)
    (hb : c.memory (c.position_in_memory + 1) < 256) :
    read_opcode c =
      .ok (c.memory c.position_in_memory <<< 8 ||| c.memory (c.position_in_memory + 1)) ∧
    read_opcode c =
      .ok (c.memory c.position_in_memory * 256 + c.memory (c.position_in_memory + 1)) := by
  constructor
  · simp [read_opcode, fetchedWord, hp]
  · simp [read_opcode, fetchedWord, hp,
      shiftLeft_lor_eq (c.memory c.position_in_memory) (c.memory (c.position_in_memory + 1)) hb]

/-- Witness for C4 at the example machine: the bytes 0x21 and 0x00 at
offsets 0 and 1 fetch as the word 0x2100. -/
theorem read_opcode_spec_witness :
    read_opcode exampleCPU = .ok 0x2100 := by
  have h := (read_opcode_spec exampleCPU (by decide) (by decide)).2
  exact h.trans (congrArg Except.ok (by decide))

/-- The machine used to witness the empty-stack RETURN fault: bytes
0x00 0xEE at offset 0, stack pointer 0. -/
def underflowCPU : CPU :=
  { CPU.new with memory := fun a => if a = 1 then 0xEE else 0 }

/-- C2: executing RETURN (word 0x00EE) with an empty call stack
(`stack_pointer = 0`) terminates the run at once with the stack-underflow
fault — for any remaining fuel, so execution never continues past it.
In the Rust source the fault is raised as `panic!("Stack underflow")`,
modelled here as the `Faulted` terminal outcome. -/
theorem ret_empty_stack_faults_underflow (c : CPU) (fuel : Nat)
    (hp : c.position_in_memory + 1 < 4096)
    (h1 : c.memory c.position_in_memory = 0x00)
    (h2 : c.memory (c.position_in_memory + 1) = 0xEE)
    (hsp : c.stack_pointer = 0) :
    run (fuel + 1) c =
      .faulted .stackUnderflow { c with position_in_memory := c.position_in_memory + 2 } := by
  have hw : read_opcode c = .ok 0xEE := by
    simp [read_opcode, fetchedWord, hp, h1, h2]
  simp [run, step, hw, decodeC, decodeX, decodeY, decodeD, decodeNNN, ret, hsp]

/-- Witness for C2: the concrete empty-stack machine faults with stack
underflow after the RETURN at offset 0. -/
theorem ret_empty_stack_faults_underflow_witness :
    run 5 underflowCPU =
      .faulted .stackUnderflow { underflowCPU with position_in_memory := 2 } :=
  ret_empty_stack_faults_underflow underflowCPU 4 (by decide) (by decide) (by decide) (by decide)

/-- C9: a fetched instruction word of 0x0000 (both bytes zero) makes the
run terminate in `Halted`, leaving registers, memory, the call stack and
the stack pointer exactly as they were.  (`position_in_memory` has been
advanced by 2 by the fetch-advance step of the loop.) -/
theorem halt_preserves_state (c : CPU) (fuel : Nat)
    (hp : c.position_in_memory + 1 < 4096)
    (h1 : c.memory c.position_in_memory = 0)
    (h2 : c.memory (c.position_in_memory + 1) = 0) :
    run (fuel + 1) c = .halted { c with position_in_memory := c.position_in_memory + 2 } ∧
    (run (fuel + 1) c).state.registers = c.registers ∧
    (run (fuel + 1) c).state.memory = c.memory ∧
    (run (fuel + 1) c).state.stack = c.stack ∧
    (run (fuel + 1) c).state.stack_pointer = c.stack_pointer := by
  have hw : read_opcode c = .ok 0 := by
    simp [read_opcode, fetchedWord, hp, h1, h2]
  have hrun : run (fuel + 1) c =
      .halted { c with position_in_memory := c.position_in_memory + 2 } := by
    simp [run, step, hw, decodeC, decodeX, decodeY, decodeD]
  refine ⟨hrun, ?_, ?_, ?_, ?_⟩ <;> rw [hrun] <;> rfl

/-- Witness for C9: the all-zero machine halts in one step with every
component other than the program counter untouched. -/
theorem halt_preserves_state_witness :
    run 1 CPU.new = .halted { CPU.new with position_in_memory := 2 } ∧
    (run 1 CPU.new).state.registers = CPU.new.registers ∧
    (run 1 CPU.new).state.memory = CPU.new.memory ∧
    (run 1 CPU.new).state.stack = CPU.new.stack ∧
    (run 1 CPU.new).state.stack_pointer = CPU.new.stack_pointer :=
  halt_preserves_state CPU.new 0 (by decide) (by decide) (by decide)

/-- The machine used to exhibit the full-stack CALL behaviour: the word
0x2100 (CALL 0x100) at offset 0 and `stack_pointer = 16`. -/
def fullStackCPU : CPU :=
  { CPU.new with
    stack_pointer := 16
    memory := fun a => if a = 0 then 0x21 else 0 }

/-- C3, observed behaviour: executing CALL with `stack_pointer = 16` does
NOT produce the stack-overflow fault.  The guard in `CPU::call` reads
`sp > stack.len()`, so at `sp = 16` it does not fire and the write
`stack[sp]` indexes the 16-entry stack out of bounds, which is a different
panic than `panic!("Stack overflow")` — that panic is unreachable. -/
theorem call_full_stack_panics_index_oob :
    (run 1 fullStackCPU).faultOf = some .indexOutOfBounds ∧
    (run 1 fullStackCPU).faultOf ≠ some .stackOverflow := by
  constructor <;> decide

/-- C7: for any state whose fetched instruction decodes to CALL
(`c` nibble 2) with the stack not full, one step pushes the
already-advanced program counter `position_in_memory + 2` at the current
stack slot, increments the stack pointer, and installs the decoded 12-bit
address as the new program counter. -/
lemma step_call_eq (c : CPU)
    (hp : c.position_in_memory + 1 < 4096)
    (hcall : decodeC (fetchedWord c) = 2)
    (hsp : c.stack_pointer < 16) :
    step c = .running
      { c with
        stack := fun i =>
          if i = c.stack_pointer then (c.position_in_memory + 2) % 65536 else c.stack i
        stack_pointer := c.stack_pointer + 1
        position_in_memory := decodeNNN (fetchedWord c) } := by
  have hw : read_opcode c = .ok (fetchedWord c) := by
    simp [read_opcode, hp]
  have hne0 : ¬(decodeC (fetchedWord c) = 0 ∧ decodeX (fetchedWord c) = 0 ∧
      decodeY (fetchedWord c) = 0 ∧ decodeD (fetchedWord c) = 0) := by
    intro h; rw [hcall] at h; exact absurd h.1 (by decide)
  have hne1 : ¬(decodeC (fetchedWord c) = 0 ∧ decodeX (fetchedWord c) = 0 ∧
      decodeY (fetchedWord c) = 14 ∧ decodeD (fetchedWord c) = 14) := by
    intro h; rw [hcall] at h; exact absurd h.1 (by decide)
  have hgt : ¬c.stack_pointer > 16 := by omega
  have hge : ¬16 ≤ c.stack_pointer := by omega
  simp [step, hw, hne0, hne1, hcall, call, hgt, hge]

theorem call_pushes_advanced_pc (c : CPU)
    (hp : c.position_in_memory + 1 < 4096)
    (hcall : decodeC (fetchedWord c) = 2)
    (hsp : c.stack_pointer < 16) :
    ∃ c2, step c = .running c2 ∧
      c2.stack c.stack_pointer = c.position_in_memory + 2 ∧
      c2.stack_pointer = c.stack_pointer + 1 ∧
      c2.position_in_memory = decodeNNN (fetchedWord c) := by
  have hmod : (c.position_in_memory + 2) % 65536 = c.position_in_memory + 2 :=
    Nat.mod_eq_of_lt (by omega)
  refine ⟨_, step_call_eq c hp hcall hsp, ?_, rfl, rfl⟩
  simp [hmod]

/-- Witness for C7 at the example machine: the CALL 0x100 at offset 0
pushes the advanced return address 2 and jumps to 0x100. -/
theorem call_pushes_advanced_pc_witness :
    ∃ c2, step exampleCPU = .running c2 ∧
      c2.stack 0 = 2 ∧ c2.stack_pointer = 1 ∧ c2.position_in_memory = 0x100 := by
  obtain ⟨c2, h1, h2, h3, h4⟩ :=
    call_pushes_advanced_pc exampleCPU (by decide) (by decide) (by decide)
  exact ⟨c2, h1, h2, h3, h4⟩

/-- Helper: one step of a machine whose fetched word is 0x00EE (RETURN)
with a non-empty, in-range stack pops the saved address into the program
counter. -/
lemma step_ret_eq (c : CPU)
    (hp : c.position_in_memory + 1 < 4096)
    (h1 : c.memory c.position_in_memory = 0)
    (h2 : c.memory (c.position_in_memory + 1) = 0xEE)
    (hsp : c.stack_pointer ≠ 0)
    (hsp16 : c.stack_pointer - 1 < 16) :
    step c = .running
      { c with
        stack_pointer := c.stack_pointer - 1
        position_in_memory := c.stack (c.stack_pointer - 1) } := by
  have hw : read_opcode c = .ok 0xEE := by
    simp [read_opcode, fetchedWord, hp, h1, h2]
  have hge : ¬16 ≤ c.stack_pointer - 1 := by omega
  simp [step, hw, decodeC, decodeX, decodeY, decodeD, ret, hsp, hge]

/-- C6: a CALL instruction followed immediately by a RETURN at the call
target restores the program counter to the address just after the CALL
(`position_in_memory + 2`), for every starting program counter and call
target, provided the stack is not full at the CALL (it is then
automatically non-empty at the RETURN). -/
theorem call_then_ret_restores_pc (c : CPU)
    (hp : c.position_in_memory + 1 < 4096)
    (hcall : decodeC (fetchedWord c) = 2)
    (hsp : c.stack_pointer < 16)
    (hn : decodeNNN (fetchedWord c) + 1 < 4096)
    (hr1 : c.memory (decodeNNN (fetchedWord c)) = 0)
    (hr2 : c.memory (decodeNNN (fetchedWord c) + 1) = 0xEE) :
    ∃ c1 c2, step c = .running c1 ∧ step c1 = .running c2 ∧
      c2.position_in_memory = c.position_in_memory + 2 := by
  have h1 := step_call_eq c hp hcall hsp
  refine ⟨_, _, h1, step_ret_eq _ hn hr1 hr2 (Nat.succ_ne_zero _) (by simp [hsp]), ?_⟩
  have hmod : (c.position_in_memory + 2) % 65536 = c.position_in_memory + 2 :=
    Nat.mod_eq_of_lt (by omega)
  simp [hmod]

/-- The machine used to witness C6: CALL 0x100 at offset 0 and RETURN at
offset 0x100. -/
def callRetCPU : CPU :=
  { CPU.new with
    memory := fun a => if a = 0 then 0x21 else if a = 0x101 then 0xEE else 0 }

/-- Witness for C6: after the CALL at offset 0 and the RETURN at 0x100,
the program counter is back at 2, the address after the CALL. -/
theorem call_then_ret_restores_pc_witness :
    ∃ c1 c2, step callRetCPU = .running c1 ∧ step c1 = .running c2 ∧
      c2.position_in_memory = 2 := by
  obtain ⟨c1, c2, h1, h2, h3⟩ :=
    call_then_ret_restores_pc callRetCPU (by decide) (by decide) (by decide)
      (by decide) (by decide) (by decide)
  exact ⟨c1, c2, h1, h2, h3⟩

/-- C8: a fetched word whose decoded tuple matches none of the four
implemented patterns — HALT, RETURN, CALL, ADD — makes the run terminate
at once in the unimplemented-opcode fault (the `todo!()` arm), for any
remaining fuel: the instruction is never skipped or executed as a no-op. -/
theorem unmatched_opcode_faults (c : CPU) (fuel : Nat)
    (hp : c.position_in_memory + 1 < 4096)
    (hm0 : ¬(decodeC (fetchedWord c) = 0 ∧ decodeX (fetchedWord c) = 0 ∧
        decodeY (fetchedWord c) = 0 ∧ decodeD (fetchedWord c) = 0))
    (hm1 : ¬(decodeC (fetchedWord c) = 0 ∧ decodeX (fetchedWord c) = 0 ∧
        decodeY (fetchedWord c) = 14 ∧ decodeD (fetchedWord c) = 14))
    (hm2 : decodeC (fetchedWord c) ≠ 2)
    (hm3 : ¬(decodeC (fetchedWord c) = 8 ∧ decodeD (fetchedWord c) = 4)) :
    run (fuel + 1) c =
      .faulted .unimplementedOpcode { c with position_in_memory := c.position_in_memory + 2 } := by
  have hw : read_opcode c = .ok (fetchedWord c) := by
    simp [read_opcode, hp]
  simp [run, step, hw, hm0, hm1, hm2, hm3]

/-- The machine used to witness C8: the word 0x1234 (a JUMP, not
implemented) at offset 0. -/
def unimplCPU : CPU :=
  { CPU.new with
    memory := fun a => if a = 0 then 0x12 else if a = 1 then 0x34 else 0 }

/-- Witness for C8: the word 0x1234 faults as unimplemented with fuel to
spare. -/
theorem unmatched_opcode_faults_witness :
    run 3 unimplCPU =
      .faulted .unimplementedOpcode { unimplCPU with position_in_memory := 2 } :=
  unmatched_opcode_faults unimplCPU 2 (by decide) (by decide) (by decide)
    (by decide) (by decide)

/-- Helper: for in-range register indices, `add_xy` succeeds and its
effect on the register file is: register 0xF ends as the carry flag, the
destination (when distinct from 0xF) ends as the wrapped sum, all other
registers are untouched. -/
lemma add_xy_eq (c : CPU) (x y : Nat) (hx : x < 16) (hy : y < 16) :
    add_xy c x y = .ok
      { c with registers := fun i =>
          if i = 15 then (if 256 ≤ c.registers x + c.registers y then 1 else 0)
          else if i = x then (c.registers x + c.registers y) % 256
          else c.registers i } := by
  have hx' : ¬16 ≤ x := by omega
  have hy' : ¬16 ≤ y := by omega
  by_cases h : 256 ≤ c.registers x + c.registers y <;>
    simp only [add_xy, hx', hy', h, ite_true, ite_false, if_true, if_false]

/-- C5: for byte-valued operand registers with destination distinct from
0xF, ADD stores the sum wrapped modulo 256 in the destination and sets
register 0xF to 1 exactly when the unsigned 8-bit addition overflows and
to 0 otherwise; a machine holding the two operand values swapped produces
the same stored value and the same flag (commutativity). -/
theorem add_xy_spec (c cSwap : CPU) (x y : Nat)
    (hx : x < 16) (hy : y < 16) (hxF : x ≠ 15)
    (hbyte1 : c.registers x < 256) (hbyte2 : c.registers y < 256)
    (hs1 : cSwap.registers x = c.registers y)
    (hs2 : cSwap.registers y = c.registers x) :
    ∃ c2 d2, add_xy c x y = .ok c2 ∧ add_xy cSwap x y = .ok d2 ∧
      c2.registers x = (c.registers x + c.registers y) % 256 ∧
      c2.registers x =
        c.registers x + c.registers y -
          (if 256 ≤ c.registers x + c.registers y then 256 else 0) ∧
      c2.registers 15 = (if 256 ≤ c.registers x + c.registers y then 1 else 0) ∧
      d2.registers x = c2.registers x ∧
      d2.registers 15 = c2.registers 15 := by
  refine ⟨_, _, add_xy_eq c x y hx hy, add_xy_eq cSwap x y hx hy, ?_, ?_, ?_, ?_, ?_⟩
  · simp [hxF]
  · by_cases h256 : 256 ≤ c.registers x + c.registers y <;> simp [hxF, h256] <;> omega
  · simp
  · simp [hxF, hs1, hs2, Nat.add_comm]
  · simp [hs1, hs2, Nat.add_comm]

/-- Register files for the C5 witness: 200/200, 5/10 and the swapped
10/5. -/
def addCPUa : CPU :=
  { CPU.new with registers := fun i => if i = 0 then 200 else if i = 1 then 200 else 0 }

/-- The 5/10 machine of the C5 witness. -/
def addCPUb : CPU :=
  { CPU.new with registers := fun i => if i = 0 then 5 else if i = 1 then 10 else 0 }

/-- The swapped 10/5 machine of the C5 witness. -/
def addCPUbSwap : CPU :=
  { CPU.new with registers := fun i => if i = 0 then 10 else if i = 1 then 5 else 0 }

/-- Witness for C5: 200 + 200 stores 144 with flag 1; 5 + 10 stores 15
with flag 0, and swapping the operand values changes nothing. -/
theorem add_xy_spec_witness :
    (∃ c2, add_xy addCPUa 0 1 = .ok c2 ∧ c2.registers 0 = 144 ∧ c2.registers 15 = 1) ∧
    (∃ c2 d2, add_xy addCPUb 0 1 = .ok c2 ∧ add_xy addCPUbSwap 0 1 = .ok d2 ∧
      c2.registers 0 = 15 ∧ c2.registers 15 = 0 ∧
      d2.registers 0 = c2.registers 0 ∧ d2.registers 15 = c2.registers 15) := by
  constructor
  · obtain ⟨c2, d2, h1, h2, h3, h3b, h4, h5, h6⟩ :=
      add_xy_spec addCPUa addCPUa 0 1 (by decide) (by decide) (by decide)
        (by decide) (by decide) (by decide) (by decide)
    exact ⟨c2, h1, h3.trans (by decide), h4.trans (by decide)⟩
  · obtain ⟨c2, d2, h1, h2, h3, h3b, h4, h5, h6⟩ :=
      add_xy_spec addCPUb addCPUbSwap 0 1 (by decide) (by decide) (by decide)
        (by decide) (by decide) (by decide) (by decide)
    exact ⟨c2, d2, h1, h2, h3.trans (by decide), h4.trans (by decide), h5, h6⟩

/-- C10: when the destination of ADD is register 0xF itself, the wrapped
sum written there is immediately overwritten by the carry flag: register
0xF ends the instruction holding 0 or 1, and no register retains the
arithmetic result. -/
theorem add_xy_flag_overwrites_xF (c : CPU) (y : Nat) (hy : y < 16) :
    ∃ c2, add_xy c 15 y = .ok c2 ∧
      c2.registers 15 = (if 256 ≤ c.registers 15 + c.registers y then 1 else 0) ∧
      (c2.registers 15 = 0 ∨ c2.registers 15 = 1) ∧
      (∀ i, i ≠ 15 → c2.registers i = c.registers i) := by
  refine ⟨_, add_xy_eq c 15 y (by decide) hy, ?_, ?_, ?_⟩
  · simp
  · by_cases h : 256 ≤ c.registers 15 + c.registers y <;> simp [h]
  · intro i hi
    simp [hi]

/-- The machine for the C10 witness: register 0xF holds 200 and register
0 holds 100, so the sum overflows. -/
def flagCPU : CPU :=
  { CPU.new with registers := fun i => if i = 15 then 200 else if i = 0 then 100 else 0 }

/-- Witness for C10: ADD with destination 0xF on 200 + 100 leaves 1 (the
carry flag) in register 0xF, not the wrapped sum 44, and register 0 keeps
its value. -/
theorem add_xy_flag_overwrites_xF_witness :
    ∃ c2, add_xy flagCPU 15 0 = .ok c2 ∧ c2.registers 15 = 1 ∧ c2.registers 0 = 100 := by
  obtain ⟨c2, h1, h2, h3, h4⟩ := add_xy_flag_overwrites_xF flagCPU 0 (by decide)
  exact ⟨c2, h1, h2.trans (by decide), (h4 0 (by decide)).trans (by decide)⟩

end Chip8
